import Mathlib

/-!
# Verification of `app.py` (Warcraft Logs attendance tracker)

Shallow embedding of the pure core of `src/app.py` and proofs of the
specified properties. Python strings are Lean `String`s; Python lists are
Lean `List`s; Python dicts used as records become Lean structures; code
that can raise becomes `Except`; UI/state effects are modelled by explicit
state passing (the roster is `st.session_state.players`).
-/

set_option autoImplicit false

namespace App

/-- A roster entry: the dict `{"name": ..., "characters": [...]}` stored in
`st.session_state.players`. -/
structure Player where
  name : String
  characters : List String
  deriving Repr, DecidableEq

/-- One element of the list built by `check_attendance` (app.py lines 114-120):
the dict with keys `player`, `characters`, `attended`, `attended_chars`, `count`. -/
structure AttendanceResult where
  player : String
  characters : List String
  attended : Bool
  attended_chars : List String
  count : Nat
  deriving Repr, DecidableEq

/-- Python `str.lower()` as used on character/participant names
(app.py line 111), lowercasing each character; `Char.toLower` lowercases
ASCII letters, which covers the comparisons the app performs. Defined over
`String.data` so that it evaluates by kernel reduction. -/
def pyLower (s : String) : String := ⟨s.data.map Char.toLower⟩

/-- `check_attendance(participants)` (app.py lines 100-122). The roster that the
Python function reads from `st.session_state.players` is an explicit argument.
The inner `for char in characters` loop appending `char` whenever
`any(char.lower() == p.lower() for p in participants)` is a filter of
`characters` in order. -/
def check_attendance (players : List Player) (participants : List String) :
    List AttendanceResult :=
  players.map (fun player =>
    let attended_chars :=
      player.characters.filter (fun char =>
        participants.any (fun p => pyLower char = pyLower p))
    { player := player.name
      characters := player.characters
      attended := attended_chars.length > 0
      attended_chars := attended_chars
      count := attended_chars.length })

/-! ## Python string helpers used by the app -/

/-- Auxiliary recursion for `pySplit`: `acc` holds the current field reversed. -/
def pySplitAux (sep : Char) : List Char → List Char → List String
  | [], acc => [⟨acc.reverse⟩]
  | c :: rest, acc =>
      if c = sep then ⟨acc.reverse⟩ :: pySplitAux sep rest []
      else pySplitAux sep rest (c :: acc)

/-- Python `s.split(sep)` for a one-character separator (`split(",")` at
app.py lines 162, 220, 252, 299 and `"/"` when reasoning about path
segments). In Python, splitting the empty string on a comma gives a list
holding one empty string, which this matches. -/
def pySplit (sep : Char) (s : String) : List String := pySplitAux sep s.data []

/-- Python `str.strip()`: removes leading and trailing whitespace. -/
def pyStrip (s : String) : String :=
  ⟨((s.data.dropWhile Char.isWhitespace).reverse.dropWhile Char.isWhitespace).reverse⟩

/-- The character-list parser `[c.strip() for c in s.split(",") if c.strip()]`
(app.py lines 162, 220, 252): split on commas, strip each token, keep the
non-empty ones (a stripped token is truthy in Python iff non-empty). -/
def parseChars (s : String) : List String :=
  ((pySplit ',' s).map pyStrip).filter (fun t => t ≠ "")

/-! ## Roster mutation: Add and Delete (player_management_section) -/

/-- The Add operation (app.py lines 160-169): on submit, if both text inputs
are truthy (non-empty strings) the parsed record is appended to
`st.session_state.players`; otherwise an error is reported and the roster is
untouched (`Except.error`). Note the guard tests the raw `characters` string,
not the parsed token list. -/
def add_player (roster : List Player) (player_name characters : String) :
    Except Unit (List Player) :=
  if player_name ≠ "" ∧ characters ≠ "" then
    .ok (roster ++ [⟨player_name, parseChars characters⟩])
  else
    .error ()

/-- The Delete operation (app.py lines 183-185): `st.session_state.players.pop(i)`
with the enumeration index `i`. Python `list.pop(i)` removes the element at
position `i` when `i < len`, and raises `IndexError` otherwise (the code has
no try/except around it), modelled by `Except.error`. -/
def delete_player (roster : List Player) (i : Nat) : Except Unit (List Player) :=
  if i < roster.length then .ok (roster.eraseIdx i) else .error ()

/-! ## CSV export (to_csv_download_link) and CSV import -/

/-- A Python single-quote character, for rendering `str` of a list. -/
def pySQ : String := String.singleton (Char.ofNat 39)

/-- Python `str(l)` for a list of strings without quotes/backslashes in them:
`str(["a", "b"])` renders as a bracketed, comma-space separated sequence of
single-quoted items. This is what `pandas.DataFrame.to_csv` writes for the
list-valued `characters` column (pandas stringifies non-scalar cells). -/
def pyStrList (l : List String) : String :=
  "[" ++ String.intercalate ", " (l.map (fun s => pySQ ++ s ++ pySQ)) ++ "]"

/-- CSV minimal quoting as used by `DataFrame.to_csv` (app.py line 126): a
field is quoted iff it contains a delimiter, quote or line break; quotes are
doubled. -/
def csvField (s : String) : String :=
  if s.data.any (fun c => c = ',' ∨ c = '"' ∨ c = '\n' ∨ c = '\r') then
    "\"" ++ ⟨(s.data.map (fun c => if c = '"' then ['"', '"'] else [c])).flatten⟩ ++ "\""
  else s

/-- `df.to_csv(index=False)` for `pd.DataFrame(st.session_state.players)`
(app.py lines 126, 208): header row `name,characters` (the dict-key order of
the roster records), then one line per record; the `characters` cell is the
Python string form of the list. The base64 wrapping of the download link
(lines 127-128) is a bijection on the CSV text and is not modelled. -/
def roster_to_csv (roster : List Player) : String :=
  "name,characters\n" ++
    String.join (roster.map (fun p =>
      csvField p.name ++ "," ++ csvField (pyStrList p.characters) ++ "\n"))

/-- Auxiliary recursion for `parseCsvFields`: splits one CSV line into fields,
honouring double quotes (`inQ` is the inside-quotes state, `acc` the current
field reversed). A doubled quote inside a quoted field is a literal quote. -/
def parseCsvFieldsAux : List Char → List Char → Bool → List String
  | [], acc, _ => [⟨acc.reverse⟩]
  | '"' :: '"' :: rest, acc, true => parseCsvFieldsAux rest ('"' :: acc) true
  | '"' :: rest, acc, true => parseCsvFieldsAux rest acc false
  | '"' :: rest, acc, false => parseCsvFieldsAux rest acc true
  | ',' :: rest, acc, false => ⟨acc.reverse⟩ :: parseCsvFieldsAux rest [] false
  | c :: rest, acc, inQ => parseCsvFieldsAux rest (c :: acc) inQ

/-- Splits one CSV line into its fields (quote-aware). -/
def parseCsvFields (line : String) : List String := parseCsvFieldsAux line.data [] false

/-- Reads one cell of the parsed CSV the way the import code sees it after
`str(x)` (app.py line 220): `pandas.read_csv` turns an empty or absent field
into `NaN`, and `str(NaN)` is the three-letter string `nan`; any other field
is kept verbatim. -/
def cellToStr (cell : Option String) : String :=
  match cell with
  | none => "nan"
  | some s => if s = "" then "nan" else s

/-- The CSV import path (app.py lines 213-226): `pd.read_csv` parses the
upload; if a `characters` column exists, every row is converted (split on
comma, strip, drop empties) and the whole roster is replaced by
`df_import.to_dict` with the records orientation; if there is no `characters` column nothing
happens (`none`). Rows are the non-empty lines after the header; the `name`
cell is likewise read through `str` (a missing name would be `NaN`, whose
only relevant aspect here is its string form). -/
def csv_import (csv : String) : Option (List Player) :=
  match (pySplit '\n' csv).filter (fun l => l ≠ "") with
  | [] => none
  | header :: rows =>
      let cols := parseCsvFields header
      let nameIdx := cols.indexOf "name"
      let charsIdx := cols.indexOf "characters"
      if "characters" ∈ cols then
        some (rows.map (fun line =>
          let fields := parseCsvFields line
          { name := cellToStr ((fields.get? nameIdx).bind (fun s => if s = "" then none else some s))
            characters := parseChars (cellToStr ((fields.get? charsIdx).bind (fun s => if s = "" then none else some s))) }))
      else none

/-! ## Google Sheets import (import_roster_from_google) -/

/-- One row of `worksheet.get_all_records()` (app.py line 242): a dict whose
keys come from the header row; `player`/`characters` are the values of the
`Player`/`Characters` keys, `none` when the key is absent from the sheet. -/
structure GRow where
  player : Option String
  characters : Option String
  deriving Repr, DecidableEq

/-- `import_roster_from_google` (app.py lines 228-263), data path only: with
no rows it warns and leaves the roster alone (`none`); otherwise a row
contributes a record iff both the `Player` and `Characters` keys are present
(lines 250-256), the characters string parsed as usual, and the whole roster
is replaced (line 258). Note the value under `Characters` is not tested for
emptiness, only the presence of the key. -/
def import_roster_from_google (rows : List GRow) : Option (List Player) :=
  if rows.isEmpty then none
  else
    some (rows.filterMap (fun row =>
      match row.player, row.characters with
      | some n, some cstr => some ⟨n, parseChars cstr⟩
      | _, _ => none))

/-- Roster states reachable in a session: the roster starts empty
(app.py line 21) and changes only through the operations of
`player_management_section` / `import_roster_from_google`: a successful Add
(line 163), a CSV import (line 222), a Google Sheets import (line 258), or a
Delete at an existing position (line 184). -/
inductive Reachable : List Player → Prop where
  | init : Reachable []
  | add (r r2 : List Player) (n c : String) :
      Reachable r → add_player r n c = .ok r2 → Reachable r2
  | csvImp (r r2 : List Player) (s : String) :
      Reachable r → csv_import s = some r2 → Reachable r2
  | sheetImp (r r2 : List Player) (rows : List GRow) :
      Reachable r → import_roster_from_google rows = some r2 → Reachable r2
  | del (r r2 : List Player) (i : Nat) :
      Reachable r → delete_player r i = .ok r2 → Reachable r2

/-! ## Report id extraction (extract_report_id) -/

/-- The character class `[a-zA-Z0-9]` of the regex at app.py line 42
(`Char.isAlpha`/`Char.isDigit` are exactly the ASCII letters and digits). -/
def isAlnumAscii (c : Char) : Bool := c.isAlpha || c.isDigit

/-- The literal part of the pattern at app.py line 42. -/
def reportsPat : List Char := "reports/".data

/-- Whether the head of a character list is ASCII alphanumeric (the `+` of
the capture group needs at least one such character). -/
def headAlnum : List Char → Bool
  | [] => false
  | c :: _ => isAlnumAscii c

/-- The regex search of app.py line 42 (pattern `reports/` followed by the
capture group `[a-zA-Z0-9]+`): scan left
to right for the first position where the literal `reports/` occurs followed
by at least one ASCII alphanumeric character; the captured group is the
maximal alphanumeric run there (greedy `+`). -/
def reSearchReports : List Char → Option String
  | [] => none
  | c :: rest =>
      if reportsPat.isPrefixOf (c :: rest) && headAlnum ((c :: rest).drop 8) then
        some ⟨((c :: rest).drop 8).takeWhile isAlnumAscii⟩
      else reSearchReports rest

/-- `extract_report_id` (app.py lines 40-43): `match.group(1)` when the regex
finds a match, `None` otherwise. -/
def extract_report_id (url : String) : Option String := reSearchReports url.data

/-- Whether the regex pattern of app.py line 42 matches at position `i`. -/
def matchesAt (cs : List Char) (i : Nat) : Bool :=
  reportsPat.isPrefixOf (cs.drop i) && headAlnum ((cs.drop i).drop 8)

/-- Declarative (leftmost-index) reading of the regex search: the smallest
position where `reports/` is followed by an alphanumeric character, and the
maximal alphanumeric run starting right after the slash. -/
def reSearchIdx (cs : List Char) : Option String :=
  match (List.range cs.length).find? (fun i => matchesAt cs i) with
  | some i => some ⟨((cs.drop i).drop 8).takeWhile isAlnumAscii⟩
  | none => none

/-- The reading of `extract_report_id` stated by the claim, modelled from the wording
of the spec: split the URL into path segments on `/`, find the first segment that
is literally `reports`, and return the following segment provided it is
non-empty and wholly alphanumeric; `None` when the URL has no such shape. -/
def extract_report_id_bySegments (url : String) : Option String :=
  segSearch (pySplit '/' url)
where
  segSearch : List String → Option String
    | [] => none
    | s :: rest =>
        if s = "reports" then
          match rest with
          | n :: _ => if n ≠ "" ∧ n.data.all isAlnumAscii then some n else none
          | [] => none
        else segSearch rest

/-! ## Warcraft Logs fetch (get_participants_from_log): return shapes -/

/-- The parsed fields of a successful API response that lines 85-94 of
app.py read: the actor list (name, subType), `startTime` in milliseconds,
`title`, and the optional `zone` name. -/
structure WCLReport where
  actors : List (String × String)
  startTime : Nat
  title : String
  zone : Option String
  deriving Repr, DecidableEq

/-- The fates of the network interaction in `get_participants_from_log`:
the response carries an `errors` key (line 81), the request/parsing raises
(line 96), or a well-formed report comes back. -/
inductive ApiResult where
  | errors (msg : String)
  | exn (msg : String)
  | ok (r : WCLReport)
  deriving Repr, DecidableEq

/-- The two shapes of value `get_participants_from_log` can return: the bare
list of line 49, or the 3-tuple of lines 83, 94 and 98. -/
inductive WCLReturn where
  | bareList (ps : List String)
  | triple (ps : List String) (title : Option String) (ctx : Option String)
  deriving Repr, DecidableEq

/-- Python truthiness of `SECRETS.get("WCL_API_KEY")` (app.py line 47): the
key is configured iff present and a non-empty string. -/
def keyConfigured : Option String → Bool
  | none => false
  | some k => k ≠ ""

/-- Rendering of `datetime.utcfromtimestamp(startTime/1000).strftime(...)`
(app.py line 90), abstracted to the seconds value: the claims settled here
concern only the shape of the returned value, never this text. -/
def fmtStartTime (ms : Nat) : String := toString (ms / 1000)

/-- `get_participants_from_log` (app.py lines 45-98) as a function of the
configured key and the fate of the API call: with no usable key it returns
the bare `[]` of line 49; an `errors` response or an exception returns
`([], None, None)` (lines 83, 98); a report returns the names of the Human
actors,
the title, and the `zone - start` context (lines 87-94, with `Ismeretlen`
for a missing zone). -/
def get_participants_from_log (key : Option String) (resp : ApiResult) : WCLReturn :=
  if keyConfigured key then
    match resp with
    | .errors _ => .triple [] none none
    | .exn _ => .triple [] none none
    | .ok r =>
        .triple ((r.actors.filter (fun a => a.2 = "Human")).map (fun a => a.1))
          (some r.title)
          (some ((r.zone.getD "Ismeretlen") ++ " - " ++ fmtStartTime r.startTime))
  else .bareList []

/-! ## Helper lemmas -/

/-- The parsed token list is empty exactly when every comma-separated token
of the input strips to the empty string. -/
theorem parseChars_eq_nil_iff (c : String) :
    parseChars c = [] ↔ ∀ t ∈ pySplit ',' c, pyStrip t = "" := by
  unfold parseChars
  rw [List.filter_eq_nil_iff]
  constructor
  · intro h t ht
    have := h (pyStrip t) (List.mem_map_of_mem pyStrip ht)
    simpa using this
  · intro h a ha
    obtain ⟨t, ht, rfl⟩ := List.mem_map.mp ha
    simpa using h t ht

/-- The parsed token list is non-empty exactly when some comma-separated
token of the input strips to a non-empty string. -/
theorem parseChars_ne_nil_iff (c : String) :
    parseChars c ≠ [] ↔ ∃ t ∈ pySplit ',' c, pyStrip t ≠ "" := by
  rw [Ne, parseChars_eq_nil_iff]
  push_neg
  rfl

/-! ## Theorems: attendance computation (C1-C3) -/

/-- C1: in `check_attendance`, a character of a roster record is counted as
attended iff it equals some participant under case-insensitive,
whitespace-exact comparison; in particular, with characters `["Jaina"]` and
participants `["Jain"]` (a strict substring) the result for that player has
`attended = false`. -/
theorem check_attendance_match_iff (roster : List Player) (ps : List String) :
    (∀ res ∈ check_attendance roster ps, ∀ c,
        c ∈ res.attended_chars ↔ (c ∈ res.characters ∧ ∃ p ∈ ps, pyLower c = pyLower p)) ∧
    check_attendance [⟨"A", ["Jaina"]⟩] ["Jain"] = [⟨"A", ["Jaina"], false, [], 0⟩] := by
  constructor
  · intro res hres c
    simp only [check_attendance, List.mem_map] at hres
    obtain ⟨pl, _, rfl⟩ := hres
    simp [List.mem_filter, List.any_eq_true]
  · decide

/-- Witness for C1 at a concrete roster and participant list. -/
theorem check_attendance_match_iff_witness :
    "Jaina" ∈ (⟨"A", ["Arthas", "Jaina"], true, ["Jaina"], 1⟩ : AttendanceResult).attended_chars ↔
      ("Jaina" ∈ (⟨"A", ["Arthas", "Jaina"], true, ["Jaina"], 1⟩ : AttendanceResult).characters ∧
        ∃ p ∈ ["JAINA"], pyLower "Jaina" = pyLower p) :=
  (check_attendance_match_iff [⟨"A", ["Arthas", "Jaina"]⟩] ["JAINA"]).1
    ⟨"A", ["Arthas", "Jaina"], true, ["Jaina"], 1⟩ (by decide) "Jaina"

/-- C2: `check_attendance` yields one result per roster record in roster
order (same length, same player names, same character lists in order), the
empty roster yields `[]`, and an empty participant list yields
`attended = false` and `count = 0` for every result. -/
theorem check_attendance_shape (roster : List Player) (ps : List String) :
    (check_attendance roster ps).length = roster.length ∧
    (check_attendance roster ps).map AttendanceResult.player = roster.map Player.name ∧
    (check_attendance roster ps).map AttendanceResult.characters = roster.map Player.characters ∧
    check_attendance [] ps = [] ∧
    (∀ res ∈ check_attendance roster [], res.attended = false ∧ res.count = 0) := by
  refine ⟨List.length_map _ _, by simp [check_attendance], by simp [check_attendance], rfl, ?_⟩
  intro res hres
  simp only [check_attendance, List.mem_map] at hres
  obtain ⟨pl, _, rfl⟩ := hres
  simp

/-- Witness for C2 at a concrete roster and participant list. -/
theorem check_attendance_shape_witness :
    (check_attendance [⟨"A", ["x"]⟩, ⟨"B", ["y"]⟩] ["y"]).length = 2 ∧
    ((⟨"A", ["x"], false, [], 0⟩ : AttendanceResult).attended = false ∧
      (⟨"A", ["x"], false, [], 0⟩ : AttendanceResult).count = 0) :=
  ⟨by
      have h := (check_attendance_shape [⟨"A", ["x"]⟩, ⟨"B", ["y"]⟩] ["y"]).1
      simpa using h,
    (check_attendance_shape [⟨"A", ["x"]⟩] ["q"]).2.2.2.2
      ⟨"A", ["x"], false, [], 0⟩ (by decide)⟩

/-- C3: every result of `check_attendance` comes from a roster record and
satisfies: `attended_chars` is the character list of that record filtered (in
order) to the case-insensitive matches, hence a sublist of it; `count` is its
length; and `attended` holds iff `count > 0`. -/
theorem check_attendance_fields (roster : List Player) (ps : List String) :
    ∀ res ∈ check_attendance roster ps, ∃ pl ∈ roster,
      res.player = pl.name ∧ res.characters = pl.characters ∧
      res.attended_chars =
        pl.characters.filter (fun c => ps.any (fun p => pyLower c = pyLower p)) ∧
      res.attended_chars.Sublist pl.characters ∧
      res.count = res.attended_chars.length ∧
      (res.attended = true ↔ 0 < res.count) := by
  intro res hres
  simp only [check_attendance, List.mem_map] at hres
  obtain ⟨pl, hpl, rfl⟩ := hres
  exact ⟨pl, hpl, rfl, rfl, rfl, List.filter_sublist _, rfl, by simp⟩

/-- Witness for C3 at a concrete roster and participant list. -/
theorem check_attendance_fields_witness :
    ∃ pl ∈ [(⟨"A", ["Arthas", "Jaina"]⟩ : Player)],
      (⟨"A", ["Arthas", "Jaina"], true, ["Jaina"], 1⟩ : AttendanceResult).player = pl.name ∧
      (⟨"A", ["Arthas", "Jaina"], true, ["Jaina"], 1⟩ : AttendanceResult).characters = pl.characters ∧
      (⟨"A", ["Arthas", "Jaina"], true, ["Jaina"], 1⟩ : AttendanceResult).attended_chars =
        pl.characters.filter (fun c => ["JAINA"].any (fun p => pyLower c = pyLower p)) ∧
      (⟨"A", ["Arthas", "Jaina"], true, ["Jaina"], 1⟩ :
          AttendanceResult).attended_chars.Sublist pl.characters ∧
      (⟨"A", ["Arthas", "Jaina"], true, ["Jaina"], 1⟩ : AttendanceResult).count =
        (⟨"A", ["Arthas", "Jaina"], true, ["Jaina"], 1⟩ :
          AttendanceResult).attended_chars.length ∧
      ((⟨"A", ["Arthas", "Jaina"], true, ["Jaina"], 1⟩ : AttendanceResult).attended = true ↔
        0 < (⟨"A", ["Arthas", "Jaina"], true, ["Jaina"], 1⟩ : AttendanceResult).count) :=
  check_attendance_fields [⟨"A", ["Arthas", "Jaina"]⟩] ["JAINA"]
    ⟨"A", ["Arthas", "Jaina"], true, ["Jaina"], 1⟩ (by decide)

/-! ## Theorems: roster operations (C5, C7, C8) -/

/-- C5 counterexample: with name `Bob` and characters string `,` every
comma-separated token strips to empty, so the claim demands a
`ValidationError`; the code instead appends a record (with an empty
character list), because its guard tests only the raw string. -/
theorem add_player_claim_counterexample :
    parseChars "," = [] ∧
    add_player [] "Bob" "," = .ok [⟨"Bob", []⟩] ∧
    add_player [] "Bob" "," ≠ .error () := by
  refine ⟨by decide, rfl, ?_⟩
  intro h
  simp [add_player] at h

/-- C5 (amended): Add appends the parsed record iff both raw input strings
are non-empty, and errors with the roster unchanged otherwise; the appended
character list is the comma-split, stripped, empties-dropped token list,
which is empty exactly when no token strips to a non-empty string. -/
theorem add_player_spec (roster : List Player) (n c : String) :
    (add_player roster n c = .ok (roster ++ [⟨n, parseChars c⟩]) ↔ (n ≠ "" ∧ c ≠ "")) ∧
    (add_player roster n c = .error () ↔ (n = "" ∨ c = "")) ∧
    (parseChars c = [] ↔ ∀ t ∈ pySplit ',' c, pyStrip t = "") := by
  refine ⟨?_, ?_, parseChars_eq_nil_iff c⟩ <;>
    · unfold add_player
      split <;> simp_all <;> tauto

/-- Witness for C5 (amended) at a concrete roster and inputs. -/
theorem add_player_spec_witness :
    (add_player [] "Ann" "Arthas, Jaina" =
        .ok ([] ++ [⟨"Ann", parseChars "Arthas, Jaina"⟩]) ↔
      ("Ann" ≠ "" ∧ "Arthas, Jaina" ≠ "")) ∧
    (add_player [] "Ann" "Arthas, Jaina" = .error () ↔
      ("Ann" = "" ∨ "Arthas, Jaina" = "")) ∧
    (parseChars "Arthas, Jaina" = [] ↔
      ∀ t ∈ pySplit ',' "Arthas, Jaina", pyStrip t = "") :=
  add_player_spec [] "Ann" "Arthas, Jaina"

/-- C7 counterexample: the roster holding a single record with an empty
character list is reachable (a Google Sheets import whose `Characters` cell
is a blank string inserts it), so the non-emptiness invariant fails. -/
theorem roster_empty_characters_reachable :
    Reachable [⟨"Ann", []⟩] ∧
    ¬ (∀ p ∈ ([⟨"Ann", []⟩] : List Player), p.characters ≠ []) := by
  constructor
  · exact Reachable.sheetImp [] [⟨"Ann", []⟩] [⟨some "Ann", some " "⟩] Reachable.init (by decide)
  · decide

/-- C7 (amended): in every reachable roster state, each record has a character
list equal to the comma-split, stripped, empties-dropped parse of some input
string; it is non-empty exactly when that input had a token that strips to a
non-empty string — records with empty character lists are reachable when it
did not. -/
theorem reachable_characters_parsed (r : List Player) (h : Reachable r) :
    ∀ p ∈ r, ∃ c, p.characters = parseChars c ∧
      (p.characters ≠ [] ↔ ∃ t ∈ pySplit ',' c, pyStrip t ≠ "") := by
  induction h with
  | init => intro p hp; cases hp
  | add r r2 n c _ hop ih =>
      intro p hp
      unfold add_player at hop
      split at hop
      · obtain rfl : r ++ [⟨n, parseChars c⟩] = r2 := by injection hop
        rcases List.mem_append.mp hp with h1 | h1
        · exact ih p h1
        · obtain rfl : p = ⟨n, parseChars c⟩ := by simpa using h1
          exact ⟨c, rfl, parseChars_ne_nil_iff c⟩
      · cases hop
  | csvImp r r2 s _ hop ih =>
      intro p hp
      unfold csv_import at hop
      split at hop
      · cases hop
      · dsimp only at hop
        split at hop
        · obtain rfl := Option.some.inj hop
          obtain ⟨line, _, rfl⟩ := List.mem_map.mp hp
          exact ⟨_, rfl, parseChars_ne_nil_iff _⟩
        · cases hop
  | sheetImp r r2 rows _ hop ih =>
      intro p hp
      unfold import_roster_from_google at hop
      split at hop
      · cases hop
      · obtain rfl := Option.some.inj hop
        obtain ⟨row, _, hrow⟩ := List.mem_filterMap.mp hp
        obtain ⟨pl, ch⟩ := row
        cases pl with
        | none => cases ch <;> cases hrow
        | some n =>
            cases ch with
            | none => cases hrow
            | some cstr =>
                obtain rfl := Option.some.inj hrow
                exact ⟨cstr, rfl, parseChars_ne_nil_iff cstr⟩
  | del r r2 i _ hop ih =>
      intro p hp
      unfold delete_player at hop
      split at hop
      · obtain rfl : r.eraseIdx i = r2 := by injection hop
        exact ih p (List.mem_of_mem_eraseIdx hp)
      · cases hop

/-- Witness for C7 (amended) at a concrete reachable roster. -/
theorem reachable_characters_parsed_witness :
    ∃ c, (⟨"Bob", ["Arthas"]⟩ : Player).characters = parseChars c ∧
      ((⟨"Bob", ["Arthas"]⟩ : Player).characters ≠ [] ↔
        ∃ t ∈ pySplit ',' c, pyStrip t ≠ "") :=
  reachable_characters_parsed [⟨"Bob", ["Arthas"]⟩]
    (Reachable.add [] [⟨"Bob", ["Arthas"]⟩] "Bob" "Arthas" Reachable.init rfl)
    ⟨"Bob", ["Arthas"]⟩ (by decide)

/-- C8 counterexample: deleting position 0 of the empty roster (a position
that no longer exists) raises `IndexError` (`Except.error`) rather than
being a silent no-op returning the unchanged roster. -/
theorem delete_player_out_of_range :
    delete_player ([] : List Player) 0 = .error () ∧
    delete_player ([] : List Player) 0 ≠ .ok [] := by
  refine ⟨rfl, ?_⟩
  intro h
  simp [delete_player] at h

/-- C8 (amended): Delete removes exactly the record at position `i` (the
prefix before it and the suffix after it survive, the length drops by one)
when `i` is in range, and raises `IndexError` (`Except.error`) when the
position no longer exists. -/
theorem delete_player_spec (roster : List Player) (i : Nat) :
    (i < roster.length →
      delete_player roster i = .ok (roster.take i ++ roster.drop (i + 1)) ∧
      (roster.eraseIdx i).length = roster.length - 1) ∧
    (roster.length ≤ i → delete_player roster i = .error ()) := by
  constructor
  · intro h
    constructor
    · unfold delete_player
      rw [if_pos h, List.eraseIdx_eq_take_drop_succ]
    · simp [List.length_eraseIdx, h]
  · intro h
    unfold delete_player
    rw [if_neg (by omega)]

/-- Witness for C8 (amended) at a concrete roster, in range and out of
range. -/
theorem delete_player_spec_witness :
    (delete_player [⟨"A", ["x"]⟩, ⟨"B", ["y"]⟩] 0 =
        .ok (([⟨"A", ["x"]⟩, ⟨"B", ["y"]⟩] : List Player).take 0 ++
          ([⟨"A", ["x"]⟩, ⟨"B", ["y"]⟩] : List Player).drop 1) ∧
      (([⟨"A", ["x"]⟩, ⟨"B", ["y"]⟩] : List Player).eraseIdx 0).length = 2 - 1) ∧
    delete_player [⟨"A", ["x"]⟩] 5 = .error () :=
  ⟨(delete_player_spec [⟨"A", ["x"]⟩, ⟨"B", ["y"]⟩] 0).1 (by decide),
    (delete_player_spec [⟨"A", ["x"]⟩] 5).2 (by decide)⟩

/-! ## Theorems: CSV round trip (C4) and import leniency (C6) -/

/-- C4: the CSV round trip is not lossless even without commas in any name:
exporting the roster `[Bob with characters Arthas, Jaina]` writes the
Python list display of the `characters` cell, so re-importing yields the
bracketed, quoted fragments of that display rather than the original
character list. -/
theorem csv_roundtrip_mangles_characters :
    csv_import (roster_to_csv [⟨"Bob", ["Arthas", "Jaina"]⟩]) =
      some [⟨"Bob", ["[" ++ pySQ ++ "Arthas" ++ pySQ, pySQ ++ "Jaina" ++ pySQ ++ "]"]⟩] ∧
    csv_import (roster_to_csv [⟨"Bob", ["Arthas", "Jaina"]⟩]) ≠
      some [⟨"Bob", ["Arthas", "Jaina"]⟩] := by
  constructor <;> decide

/-- C6 counterexample: a CSV batch whose first row is missing its characters
cell and whose second row is well-formed imports as two records, not one —
the malformed row is kept, its characters read through `str(NaN)` as
`["nan"]`. -/
theorem csv_import_keeps_malformed_row :
    csv_import "name,characters\nBob,\nAlice,Arthas\n" =
      some [⟨"Bob", ["nan"]⟩, ⟨"Alice", ["Arthas"]⟩] ∧
    Option.map List.length (csv_import "name,characters\nBob,\nAlice,Arthas\n") = some 2 := by
  constructor <;> decide

/-- C6 (amended): the Google Sheets import path does skip malformed rows: a
two-row batch whose first row is missing its `Player` or `Characters` key
and whose second row has both yields exactly the one well-formed record.
(The CSV path instead keeps every row of the upload.) -/
theorem google_import_skips_malformed (bad good : GRow) (n c : String)
    (hbad : bad.player = none ∨ bad.characters = none)
    (hn : good.player = some n) (hc : good.characters = some c) :
    import_roster_from_google [bad, good] = some [⟨n, parseChars c⟩] := by
  obtain ⟨bp, bc⟩ := bad
  obtain ⟨gp, gc⟩ := good
  simp only [GRow.player, GRow.characters] at hbad hn hc
  subst hn
  subst hc
  rcases hbad with h | h
  · subst h
    cases bc <;> simp [import_roster_from_google, List.filterMap_cons]
  · subst h
    cases bp <;> simp [import_roster_from_google, List.filterMap_cons]

/-- Witness for C6 (amended) at a concrete two-row batch. -/
theorem google_import_skips_malformed_witness :
    import_roster_from_google [⟨none, some "X"⟩, ⟨some "Alice", some "Arthas"⟩] =
      some [⟨"Alice", parseChars "Arthas"⟩] :=
  google_import_skips_malformed ⟨none, some "X"⟩ ⟨some "Alice", some "Arthas"⟩
    "Alice" "Arthas" (Or.inl rfl) rfl rfl

/-! ## Theorems: Warcraft Logs fetch return shape (C10) -/

/-- C10: `get_participants_from_log` does not return the same shape on every
path — with no configured API credential it returns the bare list `[]`
(line 49), which is not a 3-tuple, while every path taken with a configured
credential returns a 3-tuple; three-way unpacking of the bare list would
fail. -/
theorem get_participants_shape (key : Option String) (resp : ApiResult) :
    (keyConfigured key = false → get_participants_from_log key resp = .bareList []) ∧
    (keyConfigured key = true →
      ∃ ps t ctx, get_participants_from_log key resp = .triple ps t ctx) ∧
    (∀ ps t ctx, (WCLReturn.bareList [] : WCLReturn) ≠ .triple ps t ctx) := by
  refine ⟨?_, ?_, fun ps t ctx h => by cases h⟩
  · intro h
    unfold get_participants_from_log
    rw [h]
    rfl
  · intro h
    unfold get_participants_from_log
    rw [if_pos h]
    cases resp <;> exact ⟨_, _, _, rfl⟩

/-- Witness for C10 at a concrete missing key, configured key and response. -/
theorem get_participants_shape_witness :
    get_participants_from_log none (.errors "e") = .bareList [] ∧
    ∃ ps t ctx, get_participants_from_log (some "k") (.errors "e") = .triple ps t ctx :=
  ⟨(get_participants_shape none (.errors "e")).1 rfl,
    (get_participants_shape (some "k") (.errors "e")).2.1 (by decide)⟩

/-! ## Theorems: report id extraction (C9) -/

/-- Shifting the match position by one past the head character. -/
theorem matchesAt_cons (c : Char) (cs : List Char) (i : Nat) :
    matchesAt (c :: cs) (i + 1) = matchesAt cs i := by
  simp [matchesAt, List.drop_succ_cons]

/-- The scanning search of `extract_report_id` agrees with the declarative
leftmost-index description: the match found is the one at the smallest
matching position. -/
theorem reSearchReports_eq_idx (cs : List Char) : reSearchReports cs = reSearchIdx cs := by
  induction cs with
  | nil => rfl
  | cons c rest ih =>
      unfold reSearchIdx
      rw [List.length_cons, List.range_succ_eq_map]
      cases h0 : matchesAt (c :: rest) 0 with
      | true =>
          rw [List.find?_cons_of_pos _ h0]
          have hcond : (reportsPat.isPrefixOf (c :: rest) &&
              headAlnum ((c :: rest).drop 8)) = true := by
            simpa [matchesAt] using h0
          have hval : reSearchReports (c :: rest) =
              some ⟨((c :: rest).drop 8).takeWhile isAlnumAscii⟩ := by
            unfold reSearchReports
            rw [hcond]
            rfl
          rw [hval]
          rfl
      | false =>
          rw [List.find?_cons_of_neg _ (by simp [h0])]
          rw [List.find?_map]
          have hcomp : ((fun i => matchesAt (c :: rest) i) ∘ Nat.succ) =
              fun i => matchesAt rest i := by
            funext i
            simp only [Function.comp_apply, Nat.succ_eq_add_one, matchesAt_cons]
          rw [hcomp]
          have hcond : (reportsPat.isPrefixOf (c :: rest) &&
              headAlnum ((c :: rest).drop 8)) = false := by
            simpa [matchesAt] using h0
          have hLHS : reSearchReports (c :: rest) = reSearchReports rest := by
            conv_lhs => unfold reSearchReports
            rw [hcond]
            simp
          rw [hLHS, ih]
          unfold reSearchIdx
          cases hfind : (List.range rest.length).find? (fun i => matchesAt rest i) with
          | none => simp [hfind]
          | some i => simp [hfind, List.drop_succ_cons]

/-- C9 counterexample: the regex matches the substring `reports/` anywhere,
not only as a whole path segment — on `raid/myreports/Abc9` the code
extracts `Abc9`, while the path-segment reading of the claim (no segment equals
`reports`) yields no identifier. -/
theorem extract_report_id_substring_counterexample :
    extract_report_id "raid/myreports/Abc9" = some "Abc9" ∧
    extract_report_id_bySegments "raid/myreports/Abc9" = none := by
  constructor <;> decide

/-- C9 (amended): `extract_report_id` returns the maximal ASCII-alphanumeric
run immediately after the leftmost occurrence of the substring `reports/`
that is followed by at least one alphanumeric character (the occurrence need
not be a whole path segment), and returns `None` exactly when no position of
the URL matches that shape. -/
theorem extract_report_id_spec (url : String) :
    extract_report_id url = reSearchIdx url.data ∧
    (extract_report_id url = none ↔
      ∀ i < url.data.length, matchesAt url.data i = false) := by
  refine ⟨reSearchReports_eq_idx url.data, ?_⟩
  show reSearchReports url.data = none ↔ _
  rw [reSearchReports_eq_idx url.data]
  unfold reSearchIdx
  cases hfind : (List.range url.data.length).find? (fun i => matchesAt url.data i) with
  | none =>
      simp only [hfind]
      constructor
      · intro _ i hi
        have := List.find?_eq_none.mp hfind i (List.mem_range.mpr hi)
        simpa using this
      · intro _
        trivial
  | some i =>
      have hmem := List.mem_of_find?_eq_some hfind
      have hp := List.find?_some hfind
      simp only [hfind]
      constructor
      · intro h
        cases h
      · intro hall
        exact absurd hp (by simp [hall i (List.mem_range.mp hmem)])

/-- Witness for C9 (amended) at a concrete URL. -/
theorem extract_report_id_spec_witness :
    extract_report_id "https://www.warcraftlogs.com/reports/aB3xYz12/" =
      reSearchIdx "https://www.warcraftlogs.com/reports/aB3xYz12/".data :=
  (extract_report_id_spec "https://www.warcraftlogs.com/reports/aB3xYz12/").1

end App
